import Mathlib

/-!
# Verification of the `ix-rs` range-indexing crate

Shallow embedding of `src/lib.rs` (the `Ix` trait and its numeric
implementations generated by `impl_ix_numeric!`) and `src/usize_like.rs`
(the `UsizeLike<T>` adapter).

Modelling conventions:
* A fixed-width machine integer type is described by `IntTy` (bit width and
  signedness); its values are the integers in `[IntTy.minVal, IntTy.maxVal]`.
* `usize` is modelled as the 64-bit machine word, so positions and sizes are
  natural numbers bounded by `USIZE_MAX = 2^64 - 1`.
* Rust's native subtraction `a - b` wraps on overflow in release builds
  (two's complement); this is modelled by `IntTy.wrapSub`.  (Debug builds
  abort on the same inputs; either way the numeric result below is only
  reached on the non-overflowing inputs.)
* A Rust panic (from `assert_ordered!`, `assert_in_range!` or
  `Option::expect`) is modelled by `PResult.panics` carrying the condition.
* A `RangeInclusive` iterator is modelled by the finite list of the values
  it yields, in order.
-/

namespace IxRs

/-- `usize::MAX` on the modelled 64-bit platform. -/
def USIZE_MAX : Nat := 2 ^ 64 - 1

/-- Description of a fixed-width machine integer type (`u8`, …, `i128`). -/
structure IntTy where
  bits : Nat
  signed : Bool
deriving DecidableEq

def u8 : IntTy := ⟨8, false⟩
def u16 : IntTy := ⟨16, false⟩
def u32 : IntTy := ⟨32, false⟩
def u64 : IntTy := ⟨64, false⟩
def u128 : IntTy := ⟨128, false⟩
def usize : IntTy := ⟨64, false⟩
def i8 : IntTy := ⟨8, true⟩
def i16 : IntTy := ⟨16, true⟩
def i32 : IntTy := ⟨32, true⟩
def i64 : IntTy := ⟨64, true⟩
def i128 : IntTy := ⟨128, true⟩
def isize : IntTy := ⟨64, true⟩

/-- Smallest value of the type. -/
def IntTy.minVal (t : IntTy) : Int :=
  if t.signed then -(2 ^ (t.bits - 1)) else 0

/-- Largest value of the type. -/
def IntTy.maxVal (t : IntTy) : Int :=
  if t.signed then 2 ^ (t.bits - 1) - 1 else 2 ^ t.bits - 1

/-- `v` is representable in the type `t`. -/
def IntTy.inBounds (t : IntTy) (v : Int) : Prop :=
  t.minVal ≤ v ∧ v ≤ t.maxVal

instance (t : IntTy) (v : Int) : Decidable (t.inBounds v) := by
  unfold IntTy.inBounds; infer_instance

/-- Two's-complement reduction of an integer into the range of `t`:
the value Rust's wrapping arithmetic produces. -/
def IntTy.wrap (t : IntTy) (x : Int) : Int :=
  if t.signed then
    let m := x % (2 ^ t.bits)
    if m < 2 ^ (t.bits - 1) then m else m - 2 ^ t.bits
  else x % (2 ^ t.bits)

/-- Rust's native `a - b` at type `t` (release semantics: wraps on
overflow). -/
def IntTy.wrapSub (t : IntTy) (a b : Int) : Int :=
  t.wrap (a - b)

/-- `usize::try_from(x)`: succeeds exactly when `x` is representable as a
machine word. -/
def usizeTryFrom (x : Int) : Option Nat :=
  if 0 ≤ x ∧ x ≤ (USIZE_MAX : Int) then some x.toNat else none

/-- `usize::checked_add`. -/
def checkedAdd (a b : Nat) : Option Nat :=
  if a + b ≤ USIZE_MAX then some (a + b) else none

/-- The panic conditions the crate can raise: `assert_ordered!`
(`"min is greater than max"`), `assert_in_range!` (`"index is outside
range"`), and the two `expect` calls of the unchecked default methods. -/
inductive Panic where
  | invalidBounds
  | notAMember
  | indexTooLarge
  | rangeSizeTooLarge
deriving DecidableEq

/-- Result of a Rust call that can panic. -/
inductive PResult (α : Type) where
  | ok : α → PResult α
  | panics : Panic → PResult α
deriving DecidableEq

/-- The list of values yielded by the iterator `min..=max` (ascending,
inclusive of both ends, empty when `max < min`). -/
def rangeList (min max : Int) : List Int :=
  (List.range (max - min + 1).toNat).map (fun (i : Nat) => min + (i : Int))

namespace Numeric

/-!
The numeric implementation from `impl_ix_numeric!` in `src/lib.rs`,
instantiated at the type described by `t`.  The argument values are the
integers denoted by the machine values; `IntTy.inBounds` hypotheses in the
theorems express that they are representable in `t`.
-/

/-- `fn range`: `assert_ordered!(min, max); min..=max`. -/
def range (_t : IntTy) (min max : Int) : PResult (List Int) :=
  if min > max then .panics .invalidBounds
  else .ok (rangeList min max)

/-- `fn index_checked`: `assert_ordered!(min, max);
assert_in_range!(min, max, self); usize::try_from(self - min).ok()`. -/
def index_checked (t : IntTy) (v min max : Int) : PResult (Option Nat) :=
  if min > max then .panics .invalidBounds
  else if v < min then .panics .notAMember
  else if v > max then .panics .notAMember
  else .ok (usizeTryFrom (t.wrapSub v min))

/-- Default `fn index`: `self.index_checked(min, max).expect("index too
large")`. -/
def index (t : IntTy) (v min max : Int) : PResult Nat :=
  match index_checked t v min max with
  | .panics p => .panics p
  | .ok none => .panics .indexTooLarge
  | .ok (some n) => .ok n

/-- `fn in_range`: `assert_ordered!(min, max); min <= self && self <= max`. -/
def in_range (_t : IntTy) (v min max : Int) : PResult Bool :=
  if min > max then .panics .invalidBounds
  else .ok (decide (min ≤ v) && decide (v ≤ max))

/-- `fn range_size_checked`: `assert_ordered!(min, max);
usize::try_from(max - min).ok().and_then(|n| n.checked_add(1))`. -/
def range_size_checked (t : IntTy) (min max : Int) : PResult (Option Nat) :=
  if min > max then .panics .invalidBounds
  else .ok ((usizeTryFrom (t.wrapSub max min)).bind (fun n => checkedAdd n 1))

/-- Default `fn range_size`: `Ix::range_size_checked(min, max).expect("range
size too large")`. -/
def range_size (t : IntTy) (min max : Int) : PResult Nat :=
  match range_size_checked t min max with
  | .panics p => .panics p
  | .ok none => .panics .rangeSizeTooLarge
  | .ok (some n) => .ok n

/-- The Rust expression `Ix::range(min, max).nth(v.index(min, max))`: the
element of the range iterator at the offset computed by `index`.  Panics
propagate. -/
def nthAtIndex (t : IntTy) (v min max : Int) : PResult (Option Int) :=
  match index t v min max with
  | .panics p => .panics p
  | .ok n =>
    match range t min max with
    | .panics p => .panics p
    | .ok l => .ok l[n]?

end Numeric

namespace UsizeLike

/-!
The `impl Ix for UsizeLike<T>` of `src/usize_like.rs`.  `T` converts to and
from `usize` losslessly, so the adapter's behaviour is fully determined by
the machine-word images of the arguments; values are modelled as the
natural numbers `min`, `max`, `v` those conversions produce (bounded by
`USIZE_MAX` where a theorem needs it).
-/

/-- `fn range`: converts the bounds, asserts order, walks `min..=max`
mapping each word back through `T::from`.  With lossless conversions the
yielded values are exactly the words of the range. -/
def range (min max : Nat) : PResult (List Nat) :=
  if min > max then .panics .invalidBounds
  else .ok ((List.range (max - min + 1)).map (fun i => min + i))

/-- `fn index_checked`: converts, asserts order and membership, then
`Some(ix - min)` on the machine word (no overflow possible). -/
def index_checked (v min max : Nat) : PResult (Option Nat) :=
  if min > max then .panics .invalidBounds
  else if v < min then .panics .notAMember
  else if v > max then .panics .notAMember
  else .ok (some (v - min))

/-- Default `fn index` (trait default, delegating to `index_checked`). -/
def index (v min max : Nat) : PResult Nat :=
  match index_checked v min max with
  | .panics p => .panics p
  | .ok none => .panics .indexTooLarge
  | .ok (some n) => .ok n

/-- `fn in_range`: converts, asserts order, `min <= ix && ix <= max`. -/
def in_range (v min max : Nat) : PResult Bool :=
  if min > max then .panics .invalidBounds
  else .ok (decide (min ≤ v) && decide (v ≤ max))

/-- `fn range_size_checked`: converts, asserts order, `(max -
min).checked_add(1)`. -/
def range_size_checked (min max : Nat) : PResult (Option Nat) :=
  if min > max then .panics .invalidBounds
  else .ok (checkedAdd (max - min) 1)

/-- Default `fn range_size` (trait default, delegating to
`range_size_checked`). -/
def range_size (min max : Nat) : PResult Nat :=
  match range_size_checked min max with
  | .panics p => .panics p
  | .ok none => .panics .rangeSizeTooLarge
  | .ok (some n) => .ok n

end UsizeLike

/-! ## Arithmetic facts about the embedded machine operations -/

theorem IntTy.minVal_nonpos (t : IntTy) : t.minVal ≤ 0 := by
  unfold IntTy.minVal
  rcases t with ⟨b, s⟩
  cases s
  · simp
  · simp only [if_pos]
    have : (0:Int) < 2 ^ (b - 1) := by positivity
    omega

theorem IntTy.wrap_eq_self (t : IntTy) (ht : 0 < t.bits) (x : Int)
    (h1 : t.minVal ≤ x) (h2 : x ≤ t.maxVal) : t.wrap x = x := by
  rcases t with ⟨b, s⟩
  have hb : 0 < b := ht
  have hpow : (2:Int) ^ b = 2 * 2 ^ (b - 1) := by
    obtain ⟨k, rfl⟩ : ∃ k, b = k + 1 := ⟨b - 1, by omega⟩
    rw [Nat.add_sub_cancel, pow_succ]
    ring
  have hP : (0:Int) < 2 ^ (b - 1) := by positivity
  cases s
  · simp only [IntTy.wrap, IntTy.minVal, IntTy.maxVal, Bool.false_eq_true,
      if_false] at *
    exact Int.emod_eq_of_lt h1 (by omega)
  · simp only [IntTy.wrap, IntTy.minVal, IntTy.maxVal, if_true] at *
    rcases le_or_lt 0 x with hx | hx
    · have hm : x % 2 ^ b = x := Int.emod_eq_of_lt hx (by omega)
      rw [hm, if_pos (by omega)]
    · have h3 : (x + 2 ^ b) % 2 ^ b = x % 2 ^ b := by
        have := Int.add_mul_emod_self_left (a := x) (b := 2 ^ b) (c := 1)
        simp only [mul_one] at this
        exact this
      have h4 : (x + 2 ^ b) % 2 ^ b = x + 2 ^ b :=
        Int.emod_eq_of_lt (by omega) (by omega)
      have hm : x % 2 ^ b = x + 2 ^ b := by rw [← h3, h4]
      rw [hm, if_neg (by omega)]
      omega

theorem usizeTryFrom_wrap (t : IntTy) (ht : 0 < t.bits) (d : Int)
    (h0 : 0 ≤ d) (hd : d ≤ t.maxVal - t.minVal) :
    usizeTryFrom (t.wrap d)
      = if d ≤ t.maxVal ∧ d ≤ (USIZE_MAX : Int) then some d.toNat else none := by
  by_cases hm : d ≤ t.maxVal
  · rw [t.wrap_eq_self ht d (le_trans t.minVal_nonpos h0) hm]
    unfold usizeTryFrom
    by_cases hM : d ≤ (USIZE_MAX : Int)
    · rw [if_pos ⟨h0, hM⟩, if_pos ⟨hm, hM⟩]
    · rw [if_neg (by tauto), if_neg (by tauto)]
  · rw [if_neg (by tauto)]
    rcases t with ⟨b, s⟩
    have hb : 0 < b := ht
    have hpow : (2:Int) ^ b = 2 * 2 ^ (b - 1) := by
      obtain ⟨k, rfl⟩ : ∃ k, b = k + 1 := ⟨b - 1, by omega⟩
      rw [Nat.add_sub_cancel, pow_succ]
      ring
    have hP : (0:Int) < 2 ^ (b - 1) := by positivity
    cases s
    · exfalso
      simp only [IntTy.minVal, IntTy.maxVal, Bool.false_eq_true, if_false] at hd hm
      omega
    · simp only [IntTy.wrap, IntTy.minVal, IntTy.maxVal, if_true] at *
      have hm2 : d % 2 ^ b = d := Int.emod_eq_of_lt h0 (by omega)
      rw [hm2, if_neg (by omega)]
      unfold usizeTryFrom
      rw [if_neg (by omega)]

theorem IntTy.sub_le_width (t : IntTy) (a b : Int)
    (ha : t.inBounds a) (hb : t.inBounds b) :
    a - b ≤ t.maxVal - t.minVal := by
  rcases ha with ⟨_, ha2⟩
  rcases hb with ⟨hb1, _⟩
  omega

/-! ## Facts about the modelled iterator -/

theorem rangeList_length (min max : Int) :
    (rangeList min max).length = (max - min + 1).toNat := by
  unfold rangeList
  rw [List.length_map, List.length_range]

theorem rangeList_getElem? (min max : Int) (i : Nat)
    (h : i < (max - min + 1).toNat) :
    (rangeList min max)[i]? = some (min + (i : Int)) := by
  unfold rangeList
  rw [List.getElem?_map, List.getElem?_range h]
  rfl

theorem mem_rangeList (v min max : Int) :
    v ∈ rangeList min max ↔ min ≤ v ∧ v ≤ max := by
  constructor
  · intro hv
    unfold rangeList at hv
    obtain ⟨i, hi, rfl⟩ := List.mem_map.mp hv
    have hi2 := List.mem_range.mp hi
    omega
  · rintro ⟨h1, h2⟩
    unfold rangeList
    exact List.mem_map.mpr
      ⟨(v - min).toNat, List.mem_range.mpr (by omega), by omega⟩

/-! ## Characterisations of the checked operations -/

theorem Numeric.index_checked_eq (t : IntTy) (ht : 0 < t.bits)
    (v min max : Int) (hv : t.inBounds v) (hmin : t.inBounds min)
    (h1 : min ≤ max) (h2 : min ≤ v) :
    Numeric.index_checked t v min max
      = if v ≤ max then
          .ok (if v - min ≤ t.maxVal ∧ v - min ≤ (USIZE_MAX : Int) then
                some (v - min).toNat else none)
        else .panics .notAMember := by
  unfold Numeric.index_checked
  rw [if_neg (by omega), if_neg (by omega)]
  by_cases h3 : v ≤ max
  · rw [if_neg (by omega), if_pos h3, IntTy.wrapSub,
      usizeTryFrom_wrap t ht (v - min) (by omega) (t.sub_le_width v min hv hmin)]
  · rw [if_pos (by omega), if_neg h3]

theorem Numeric.range_size_checked_eq (t : IntTy) (ht : 0 < t.bits)
    (min max : Int) (hmin : t.inBounds min) (hmax : t.inBounds max)
    (h1 : min ≤ max) :
    Numeric.range_size_checked t min max
      = .ok (if max - min ≤ t.maxVal ∧ max - min + 1 ≤ (USIZE_MAX : Int) then
              some (max - min + 1).toNat else none) := by
  unfold Numeric.range_size_checked
  rw [if_neg (by omega), IntTy.wrapSub,
    usizeTryFrom_wrap t ht (max - min) (by omega) (t.sub_le_width max min hmax hmin)]
  by_cases hc : max - min ≤ t.maxVal ∧ max - min ≤ (USIZE_MAX : Int)
  · rw [if_pos hc, Option.some_bind, checkedAdd]
    by_cases hc2 : max - min + 1 ≤ (USIZE_MAX : Int)
    · rw [if_pos (by omega), if_pos ⟨hc.1, hc2⟩]
      congr 2
      omega
    · rw [if_neg (by omega), if_neg (by tauto)]
  · rw [if_neg hc, if_neg (by rintro ⟨ha, hb2⟩; exact hc ⟨ha, by omega⟩),
      Option.none_bind]

/-! ## Delegation of the unchecked default methods -/

theorem Numeric.index_ok_iff (t : IntTy) (v min max : Int) (n : Nat) :
    Numeric.index t v min max = .ok n ↔
      Numeric.index_checked t v min max = .ok (some n) := by
  unfold Numeric.index
  rcases hc : Numeric.index_checked t v min max with x | p
  · rcases x with _ | m <;> simp
  · simp

theorem Numeric.index_of_checked_none (t : IntTy) (v min max : Int)
    (h : Numeric.index_checked t v min max = .ok none) :
    Numeric.index t v min max = .panics .indexTooLarge := by
  unfold Numeric.index
  rw [h]

theorem Numeric.index_of_checked_panics (t : IntTy) (v min max : Int)
    (p : Panic) (h : Numeric.index_checked t v min max = .panics p) :
    Numeric.index t v min max = .panics p := by
  unfold Numeric.index
  rw [h]

theorem Numeric.range_size_ok_iff (t : IntTy) (min max : Int) (n : Nat) :
    Numeric.range_size t min max = .ok n ↔
      Numeric.range_size_checked t min max = .ok (some n) := by
  unfold Numeric.range_size
  rcases hc : Numeric.range_size_checked t min max with x | p
  · rcases x with _ | m <;> simp
  · simp

theorem Numeric.range_size_of_checked_none (t : IntTy) (min max : Int)
    (h : Numeric.range_size_checked t min max = .ok none) :
    Numeric.range_size t min max = .panics .rangeSizeTooLarge := by
  unfold Numeric.range_size
  rw [h]

theorem Numeric.range_size_of_checked_panics (t : IntTy) (min max : Int)
    (p : Panic) (h : Numeric.range_size_checked t min max = .panics p) :
    Numeric.range_size t min max = .panics p := by
  unfold Numeric.range_size
  rw [h]

theorem UsizeLike.adapter_index_ok_iff (v min max n : Nat) :
    UsizeLike.index v min max = .ok n ↔
      UsizeLike.index_checked v min max = .ok (some n) := by
  unfold UsizeLike.index
  rcases hc : UsizeLike.index_checked v min max with x | p
  · rcases x with _ | m <;> simp
  · simp

theorem UsizeLike.adapter_range_size_ok_iff (min max n : Nat) :
    UsizeLike.range_size min max = .ok n ↔
      UsizeLike.range_size_checked min max = .ok (some n) := by
  unfold UsizeLike.range_size
  rcases hc : UsizeLike.range_size_checked min max with x | p
  · rcases x with _ | m <;> simp
  · simp

theorem UsizeLike.adapter_range_size_of_checked_none (min max : Nat)
    (h : UsizeLike.range_size_checked min max = .ok none) :
    UsizeLike.range_size min max = .panics .rangeSizeTooLarge := by
  unfold UsizeLike.range_size
  rw [h]

/-! ## The claims -/

/-- C1: the claim states that for every fixed-width type the checked
operations signal overflow exactly when the true mathematical offset
`v - min` (resp. count `max - min + 1`) does not fit the unsigned machine
word.  The code violates this for the signed types, whose raw subtraction
`self - min` (resp. `max - min`) overflows the element type itself before
the cast: at `i8` with `min = -128`, `max = 127`, `index_checked(127, -128,
127)` returns `None` although the true offset `255` fits `usize`, and
`range_size_checked(-128, 127)` returns `None` although the true count
`256` fits `usize` — contradicting the crate's own documentation of the
checked methods (`"If this would overflow the range of usize, returns
None"`). -/
theorem claim_C1_checked_signals_iff_unrepresentable :
    Numeric.index_checked i8 127 (-128) 127 = .ok none ∧
    ((127 : Int) - (-128)) ≤ (USIZE_MAX : Int) ∧
    Numeric.range_size_checked i8 (-128) 127 = .ok none ∧
    ((127 : Int) - (-128) + 1) ≤ (USIZE_MAX : Int) := by
  exact ⟨by decide, by decide, by decide, by decide⟩

/-- C2 as stated is false on the code: for `i8` bounds `(-128, 127)` the
value `127` is in range, yet `Ix::range(min, max).nth(v.index(min, max))`
does not yield `Some(127)` — the inner `index` call panics (its checked
form returns the overflow signal because `127 - (-128)` overflows `i8`),
so no element is produced. -/
theorem claim_C2_counterexample :
    Numeric.in_range i8 127 (-128) 127 = .ok true ∧
    Numeric.nthAtIndex i8 127 (-128) 127 = .panics .indexTooLarge := by
  exact ⟨by decide, by decide⟩

/-- C2 (amended): for every fixed-width type, valid bounds and a value `v`
with `in_range(v, min, max)` true, **provided the `index` call returns
normally** (with some offset `n`), taking the element of
`range(min, max)` at offset `n` yields exactly `v`. -/
theorem claim_C2_roundtrip (t : IntTy) (v min max : Int) (n : Nat)
    (ht : 0 < t.bits) (hv : t.inBounds v) (hmin : t.inBounds min)
    (hmem : Numeric.in_range t v min max = .ok true)
    (hidx : Numeric.index t v min max = .ok n) :
    Numeric.nthAtIndex t v min max = .ok (some v) := by
  have hord : ¬ min > max := by
    intro h
    unfold Numeric.in_range at hmem
    rw [if_pos h] at hmem
    exact PResult.noConfusion hmem
  unfold Numeric.in_range at hmem
  rw [if_neg hord] at hmem
  have hmv : min ≤ v ∧ v ≤ max := by
    have h2 := PResult.ok.inj hmem
    simp only [Bool.and_eq_true, decide_eq_true_eq] at h2
    exact h2
  have hck := (Numeric.index_ok_iff t v min max n).mp hidx
  rw [Numeric.index_checked_eq t ht v min max hv hmin (by omega) hmv.1,
    if_pos hmv.2] at hck
  have hsome := PResult.ok.inj hck
  by_cases hcond : v - min ≤ t.maxVal ∧ v - min ≤ (USIZE_MAX : Int)
  · rw [if_pos hcond] at hsome
    have hn : n = (v - min).toNat := (Option.some.inj hsome).symm
    unfold Numeric.nthAtIndex
    rw [hidx]
    dsimp only
    unfold Numeric.range
    rw [if_neg hord]
    dsimp only
    rw [hn, rangeList_getElem? min max (v - min).toNat (by omega)]
    congr 2
    omega
  · rw [if_neg hcond] at hsome
    exact Option.noConfusion hsome

/-- Witness for the amended C2 at the spec's own scenario `min = 17`,
`max = 5432`, `v = 20` on the 32-bit signed type (position 3). -/
theorem claim_C2_roundtrip_witness :
    Numeric.nthAtIndex i32 20 17 5432 = .ok (some 20) :=
  claim_C2_roundtrip i32 20 17 5432 3 (by decide) (by decide) (by decide)
    (by decide) (by decide)

/-- C3: for every fixed-width type and valid bounds whose size computation
succeeds (`range_size_checked` returns `Some s`), mapping each element of
the sequence produced by `range(min, max)` through
`index_checked(-, min, max)` yields exactly `Some 0, Some 1, …,
Some (s-1)` in order — no gaps, repeats, or `None` results. -/
theorem claim_C3_bijective_enumeration (t : IntTy) (min max : Int)
    (s : Nat) (l : List Int) (ht : 0 < t.bits)
    (hmin : t.inBounds min) (hmax : t.inBounds max)
    (hs : Numeric.range_size_checked t min max = .ok (some s))
    (hl : Numeric.range t min max = .ok l) :
    l.map (fun v => Numeric.index_checked t v min max)
      = (List.range s).map (fun i => PResult.ok (some i)) := by
  have hord : ¬ min > max := by
    intro h
    unfold Numeric.range at hl
    rw [if_pos h] at hl
    exact PResult.noConfusion hl
  have hleq : l = rangeList min max := by
    unfold Numeric.range at hl
    rw [if_neg hord] at hl
    exact (PResult.ok.inj hl).symm
  subst hleq
  rw [Numeric.range_size_checked_eq t ht min max hmin hmax (by omega)] at hs
  have hsome := PResult.ok.inj hs
  by_cases hcond : max - min ≤ t.maxVal ∧ max - min + 1 ≤ (USIZE_MAX : Int)
  swap
  · rw [if_neg hcond] at hsome
    exact Option.noConfusion hsome
  rw [if_pos hcond] at hsome
  have hsval : s = (max - min + 1).toNat := (Option.some.inj hsome).symm
  obtain ⟨hmin1, hmin2⟩ := hmin
  obtain ⟨hmax1, hmax2⟩ := hmax
  subst hsval
  unfold rangeList
  rw [List.map_map]
  apply List.map_congr_left
  intro i hi
  have hi2 : i < (max - min + 1).toNat := List.mem_range.mp hi
  simp only [Function.comp]
  rw [Numeric.index_checked_eq t ht (min + (i : Int)) min max
    ⟨by omega, by omega⟩ ⟨hmin1, hmin2⟩ (by omega) (by omega),
    if_pos (by omega), if_pos ⟨by omega, by omega⟩]
  congr 2
  omega

/-- Witness for C3 at `u8`, `min = 0`, `max = 3` (size 4). -/
theorem claim_C3_bijective_enumeration_witness :
    (rangeList 0 3).map (fun v => Numeric.index_checked u8 v 0 3)
      = (List.range 4).map (fun i => PResult.ok (some i)) :=
  claim_C3_bijective_enumeration u8 0 3 4 (rangeList 0 3) (by decide)
    (by decide) (by decide) (by decide) (by decide)

/-- C4: for valid bounds, `in_range(v, min, max)` returns `true` exactly
when `v` appears among the elements produced by `range(min, max)`, and for
the numeric implementations it is computed as the two-sided comparison
`min <= v && v <= max`. -/
theorem claim_C4_membership (t : IntTy) (v min max : Int) (l : List Int)
    (h : min ≤ max) (hl : Numeric.range t min max = .ok l) :
    (Numeric.in_range t v min max = .ok true ↔ v ∈ l) ∧
    Numeric.in_range t v min max
      = .ok (decide (min ≤ v) && decide (v ≤ max)) := by
  have hord : ¬ min > max := by omega
  have hleq : l = rangeList min max := by
    unfold Numeric.range at hl
    rw [if_neg hord] at hl
    exact (PResult.ok.inj hl).symm
  subst hleq
  have hbool : Numeric.in_range t v min max
      = .ok (decide (min ≤ v) && decide (v ≤ max)) := by
    unfold Numeric.in_range
    rw [if_neg hord]
  refine ⟨?_, hbool⟩
  rw [hbool, mem_rangeList]
  constructor
  · intro hh
    have h2 := PResult.ok.inj hh
    simp only [Bool.and_eq_true, decide_eq_true_eq] at h2
    exact h2
  · intro hh
    have h2 : (decide (min ≤ v) && decide (v ≤ max)) = true := by
      simp [hh.1, hh.2]
    rw [h2]

/-- Witness for C4 at `u8`, `v = 2`, bounds `(1, 5)`. -/
theorem claim_C4_membership_witness :
    (Numeric.in_range u8 2 1 5 = .ok true ↔ (2 : Int) ∈ rangeList 1 5) ∧
    Numeric.in_range u8 2 1 5
      = .ok (decide ((1 : Int) ≤ 2) && decide ((2 : Int) ≤ 5)) :=
  claim_C4_membership u8 2 1 5 (rangeList 1 5) (by decide) (by decide)

/-- C5: whenever `range_size(min, max)` succeeds it equals the number of
elements the iterator `range(min, max)` produces; in particular for the
32-bit unsigned type with `min = 8079`, `max = 1836091` the size is
`1828013` and equals the enumerated count. -/
theorem claim_C5_size_is_count (t : IntTy) (min max : Int) (s : Nat)
    (l : List Int) (ht : 0 < t.bits) (hmin : t.inBounds min)
    (hmax : t.inBounds max)
    (hs : Numeric.range_size t min max = .ok s)
    (hl : Numeric.range t min max = .ok l) :
    s = l.length ∧
    Numeric.range_size u32 8079 1836091 = .ok 1828013 ∧
    (rangeList 8079 1836091).length = 1828013 := by
  refine ⟨?_, by decide, ?_⟩
  · have hck := (Numeric.range_size_ok_iff t min max s).mp hs
    have hord : ¬ min > max := by
      intro h
      unfold Numeric.range_size_checked at hck
      rw [if_pos h] at hck
      exact PResult.noConfusion hck
    have hleq : l = rangeList min max := by
      unfold Numeric.range at hl
      rw [if_neg hord] at hl
      exact (PResult.ok.inj hl).symm
    subst hleq
    rw [Numeric.range_size_checked_eq t ht min max hmin hmax (by omega)]
      at hck
    have hsome := PResult.ok.inj hck
    by_cases hcond : max - min ≤ t.maxVal ∧ max - min + 1 ≤ (USIZE_MAX : Int)
    · rw [if_pos hcond] at hsome
      rw [rangeList_length]
      exact (Option.some.inj hsome).symm
    · rw [if_neg hcond] at hsome
      exact Option.noConfusion hsome
  · rw [rangeList_length]
    decide

/-- Witness for C5 at `u8`, bounds `(0, 3)` (size 4). -/
theorem claim_C5_size_is_count_witness :
    4 = (rangeList 0 3).length ∧
    Numeric.range_size u32 8079 1836091 = .ok 1828013 ∧
    (rangeList 8079 1836091).length = 1828013 :=
  claim_C5_size_is_count u8 0 3 4 (rangeList 0 3) (by decide) (by decide)
    (by decide) (by decide) (by decide)

/-- C6: the unchecked operations delegate to the checked ones and never
diverge from their successful results: a checked `Some n` becomes the
unchecked result `n`, and a checked overflow signal makes the unchecked
form panic (fail) instead of returning a value — for the numeric
implementations and the `UsizeLike` adapter alike. -/
theorem claim_C6_unchecked_delegates (t : IntTy) (v min max : Int)
    (w mn mx n : Nat) :
    (Numeric.index_checked t v min max = .ok (some n) →
      Numeric.index t v min max = .ok n) ∧
    (Numeric.index_checked t v min max = .ok none →
      Numeric.index t v min max = .panics .indexTooLarge) ∧
    (Numeric.range_size_checked t min max = .ok (some n) →
      Numeric.range_size t min max = .ok n) ∧
    (Numeric.range_size_checked t min max = .ok none →
      Numeric.range_size t min max = .panics .rangeSizeTooLarge) ∧
    (UsizeLike.index_checked w mn mx = .ok (some n) →
      UsizeLike.index w mn mx = .ok n) ∧
    (UsizeLike.range_size_checked mn mx = .ok (some n) →
      UsizeLike.range_size mn mx = .ok n) ∧
    (UsizeLike.range_size_checked mn mx = .ok none →
      UsizeLike.range_size mn mx = .panics .rangeSizeTooLarge) :=
  ⟨fun h => (Numeric.index_ok_iff t v min max n).mpr h,
   Numeric.index_of_checked_none t v min max,
   fun h => (Numeric.range_size_ok_iff t min max n).mpr h,
   Numeric.range_size_of_checked_none t min max,
   fun h => (UsizeLike.adapter_index_ok_iff w mn mx n).mpr h,
   fun h => (UsizeLike.adapter_range_size_ok_iff mn mx n).mpr h,
   UsizeLike.adapter_range_size_of_checked_none mn mx⟩

/-- Witness for C6: each delegation direction exercised at a concrete
input (successful checked results are preserved; overflow signals turn
into the corresponding panic). -/
theorem claim_C6_unchecked_delegates_witness :
    Numeric.index u8 2 0 5 = .ok 2 ∧
    Numeric.index i8 127 (-128) 127 = .panics .indexTooLarge ∧
    Numeric.range_size u8 0 5 = .ok 6 ∧
    Numeric.range_size i8 (-128) 127 = .panics .rangeSizeTooLarge ∧
    UsizeLike.index 2 0 5 = .ok 2 ∧
    UsizeLike.range_size 0 5 = .ok 6 ∧
    UsizeLike.range_size 0 USIZE_MAX = .panics .rangeSizeTooLarge :=
  ⟨(claim_C6_unchecked_delegates u8 2 0 5 0 0 0 2).1 (by decide),
   (claim_C6_unchecked_delegates i8 127 (-128) 127 0 0 0 0).2.1 (by decide),
   (claim_C6_unchecked_delegates u8 0 0 5 0 0 0 6).2.2.1 (by decide),
   (claim_C6_unchecked_delegates i8 0 (-128) 127 0 0 0 0).2.2.2.1
     (by decide),
   (claim_C6_unchecked_delegates u8 0 0 0 2 0 5 2).2.2.2.2.1 (by decide),
   (claim_C6_unchecked_delegates u8 0 0 0 0 0 5 6).2.2.2.2.2.1 (by decide),
   (claim_C6_unchecked_delegates u8 0 0 0 0 0 USIZE_MAX 0).2.2.2.2.2.2
     (by decide)⟩

/-- C7 fails as stated: the claim says that for the adapter neither
`index_checked` (with `v` in range) nor `range_size_checked` ever returns
the overflow signal, but at the valid full-word bounds `min = 0`,
`max = usize::MAX` the size computation does return `None` — the count
`2^64` does not fit the machine word, and `(max - min).checked_add(1)`
signals exactly that. -/
theorem claim_C7_counterexample :
    (0 : Nat) ≤ USIZE_MAX ∧
    UsizeLike.range_size_checked 0 USIZE_MAX = .ok none :=
  ⟨by decide, by decide⟩

/-- C7 (amended): for the adapter with `min ≤ max` after conversion,
`index_checked` with `v` in range never returns the overflow signal — it
always returns `Some (v - min)` — and `range_size_checked` returns the
overflow signal only in the single full-word case `min = 0`,
`max = usize::MAX`; in every other valid case it returns
`Some (max - min + 1)`. -/
theorem claim_C7_adapter_no_internal_overflow (v min max : Nat)
    (hord : min ≤ max) (hmax : max ≤ USIZE_MAX)
    (h1 : min ≤ v) (h2 : v ≤ max) :
    UsizeLike.index_checked v min max = .ok (some (v - min)) ∧
    (¬(min = 0 ∧ max = USIZE_MAX) →
      UsizeLike.range_size_checked min max = .ok (some (max - min + 1))) := by
  constructor
  · unfold UsizeLike.index_checked
    rw [if_neg (by omega), if_neg (by omega), if_neg (by omega)]
  · intro hno
    unfold UsizeLike.range_size_checked checkedAdd
    rw [if_neg (by omega), if_pos (by omega)]

/-- Witness for the amended C7 at `v = 2`, bounds `(1, 5)`. -/
theorem claim_C7_adapter_no_internal_overflow_witness :
    UsizeLike.index_checked 2 1 5 = .ok (some 1) ∧
    UsizeLike.range_size_checked 1 5 = .ok (some 5) :=
  ⟨(claim_C7_adapter_no_internal_overflow 2 1 5 (by decide) (by decide)
      (by decide) (by decide)).1,
   (claim_C7_adapter_no_internal_overflow 2 1 5 (by decide) (by decide)
      (by decide) (by decide)).2 (by decide)⟩

/-- C8: with inverted bounds `min > max`, every operation — `range`,
`index_checked`, `index`, `in_range`, `range_size_checked`, `range_size`,
for the numeric implementations and the `UsizeLike` adapter alike — panics
with the invalid-bounds condition and returns no result. -/
theorem claim_C8_invalid_bounds (t : IntTy) (v min max : Int)
    (w mn mx : Nat) (h : min > max) (hn : mn > mx) :
    Numeric.range t min max = .panics .invalidBounds ∧
    Numeric.index_checked t v min max = .panics .invalidBounds ∧
    Numeric.index t v min max = .panics .invalidBounds ∧
    Numeric.in_range t v min max = .panics .invalidBounds ∧
    Numeric.range_size_checked t min max = .panics .invalidBounds ∧
    Numeric.range_size t min max = .panics .invalidBounds ∧
    UsizeLike.range mn mx = .panics .invalidBounds ∧
    UsizeLike.index_checked w mn mx = .panics .invalidBounds ∧
    UsizeLike.index w mn mx = .panics .invalidBounds ∧
    UsizeLike.in_range w mn mx = .panics .invalidBounds ∧
    UsizeLike.range_size_checked mn mx = .panics .invalidBounds ∧
    UsizeLike.range_size mn mx = .panics .invalidBounds := by
  have hic : Numeric.index_checked t v min max = .panics .invalidBounds := by
    unfold Numeric.index_checked
    rw [if_pos h]
  have hsc : Numeric.range_size_checked t min max
      = .panics .invalidBounds := by
    unfold Numeric.range_size_checked
    rw [if_pos h]
  have huic : UsizeLike.index_checked w mn mx = .panics .invalidBounds := by
    unfold UsizeLike.index_checked
    rw [if_pos hn]
  have husc : UsizeLike.range_size_checked mn mx
      = .panics .invalidBounds := by
    unfold UsizeLike.range_size_checked
    rw [if_pos hn]
  refine ⟨?_, hic, ?_, ?_, hsc, ?_, ?_, huic, ?_, ?_, husc, ?_⟩
  · unfold Numeric.range
    rw [if_pos h]
  · exact Numeric.index_of_checked_panics t v min max _ hic
  · unfold Numeric.in_range
    rw [if_pos h]
  · exact Numeric.range_size_of_checked_panics t min max _ hsc
  · unfold UsizeLike.range
    rw [if_pos hn]
  · unfold UsizeLike.index
    rw [huic]
  · unfold UsizeLike.in_range
    rw [if_pos hn]
  · unfold UsizeLike.range_size
    rw [husc]

/-- Witness for C8 at the spec's scenario: 8-bit unsigned inverted bounds
`min = 250`, `max = 10` (and the same machine words for the adapter). -/
theorem claim_C8_invalid_bounds_witness :
    Numeric.range u8 250 10 = .panics .invalidBounds ∧
    UsizeLike.range 250 10 = .panics .invalidBounds :=
  ⟨(claim_C8_invalid_bounds u8 0 250 10 0 250 10 (by decide)
      (by decide)).1,
   (claim_C8_invalid_bounds u8 0 250 10 0 250 10 (by decide)
      (by decide)).2.2.2.2.2.2.1⟩

/-- C9: for valid bounds and a value outside `[min, max]`, the position
operations `index_checked` and `index` panic with the not-a-member
condition rather than returning any position or overflow signal — numeric
implementations and adapter alike. -/
theorem claim_C9_not_a_member (t : IntTy) (v min max : Int)
    (w mn mx : Nat) (h : min ≤ max) (hout : v < min ∨ v > max)
    (hn : mn ≤ mx) (hnout : w < mn ∨ w > mx) :
    Numeric.index_checked t v min max = .panics .notAMember ∧
    Numeric.index t v min max = .panics .notAMember ∧
    UsizeLike.index_checked w mn mx = .panics .notAMember ∧
    UsizeLike.index w mn mx = .panics .notAMember := by
  have hic : Numeric.index_checked t v min max = .panics .notAMember := by
    unfold Numeric.index_checked
    rcases hout with ho | ho
    · rw [if_neg (by omega), if_pos ho]
    · rw [if_neg (by omega), if_neg (by omega), if_pos ho]
  have huic : UsizeLike.index_checked w mn mx = .panics .notAMember := by
    unfold UsizeLike.index_checked
    rcases hnout with ho | ho
    · rw [if_neg (by omega), if_pos ho]
    · rw [if_neg (by omega), if_neg (by omega), if_pos ho]
  refine ⟨hic, Numeric.index_of_checked_panics t v min max _ hic, huic, ?_⟩
  unfold UsizeLike.index
  rw [huic]

/-- Witness for C9 at the spec's scenario: 8-bit unsigned `min = 0`,
`max = 254`, `v = 255`. -/
theorem claim_C9_not_a_member_witness :
    Numeric.index_checked u8 255 0 254 = .panics .notAMember ∧
    Numeric.index u8 255 0 254 = .panics .notAMember ∧
    UsizeLike.index_checked 255 0 254 = .panics .notAMember ∧
    UsizeLike.index 255 0 254 = .panics .notAMember :=
  claim_C9_not_a_member u8 255 0 254 255 0 254 (by decide) (by decide)
    (by decide) (by decide)

/-- C10: for the adapter with valid converted bounds `min ≤ max` (machine
words), `range_size_checked` returns the overflow signal `None` exactly
when `min` converts to `0` and `max` converts to `usize::MAX` (the range
covering every machine word, whose count `2^64` does not fit a `usize`);
in every other valid case it returns `Some (max - min + 1)`. -/
theorem claim_C10_adapter_size_none_iff (min max : Nat)
    (hord : min ≤ max) (hmax : max ≤ USIZE_MAX) :
    (UsizeLike.range_size_checked min max = .ok none ↔
      (min = 0 ∧ max = USIZE_MAX)) ∧
    (¬(min = 0 ∧ max = USIZE_MAX) →
      UsizeLike.range_size_checked min max = .ok (some (max - min + 1))) := by
  have hbase : UsizeLike.range_size_checked min max
      = .ok (if max - min + 1 ≤ USIZE_MAX then some (max - min + 1)
             else none) := by
    unfold UsizeLike.range_size_checked checkedAdd
    rw [if_neg (by omega)]
  constructor
  · rw [hbase]
    by_cases hc : max - min + 1 ≤ USIZE_MAX
    · rw [if_pos hc]
      constructor
      · intro hh
        exact Option.noConfusion (PResult.ok.inj hh)
      · rintro ⟨h0, hM⟩
        exact absurd hc (by omega)
    · rw [if_neg hc]
      constructor
      · intro _
        constructor <;> omega
      · intro _
        rfl
  · intro hno
    rw [hbase, if_pos (by omega)]

/-- Witness for C10 at the overflowing full-word bounds and at `(1, 5)`. -/
theorem claim_C10_adapter_size_none_iff_witness :
    (UsizeLike.range_size_checked 0 USIZE_MAX = .ok none ↔
      ((0 : Nat) = 0 ∧ USIZE_MAX = USIZE_MAX)) ∧
    UsizeLike.range_size_checked 1 5 = .ok (some 5) :=
  ⟨(claim_C10_adapter_size_none_iff 0 USIZE_MAX (by decide) (by decide)).1,
   (claim_C10_adapter_size_none_iff 1 5 (by decide) (by decide)).2
     (by decide)⟩

end IxRs
